import Mathlib

/-!
Verification development for the `latam_genderize` gender-prediction
pipeline (file `latam_genderize/genderize.py`, with a near-identical older
copy in `Genderize/Genderize.py`).

The pipeline is embedded shallowly:

* Strings are Lean `String`s (lists of Unicode characters), scores and
  encoded-vector entries are exact rationals `ℚ`.
* The external transliteration capability (`unidecode` in the source) is a
  parameter `translit : String → String`; a concrete fragment of the
  unidecode table (`unidecodeStr`) is provided for concrete runs.
* The external classifier capability is a parameter
  `model : List (List ℚ) → List ℚ`.
* A pandas DataFrame is modelled column-orientedly as an ordered list of
  (column name, cell list) pairs; column assignment overwrites an existing
  column in place or appends a new one at the end, as pandas does.
-/

namespace LatamGenderize

/-- Models Python `str.lower` character-wise for the characters this
development uses: ASCII uppercase letters map to the corresponding
lowercase letter, a small table handles the accented Latin capitals that
appear in concrete examples, and every other character is unchanged
(characters such as digits, '№' or already-lowercase letters have no
lowercase mapping in Python either). -/
def pyLowerChar (c : Char) : Char :=
  if 65 ≤ c.toNat ∧ c.toNat ≤ 90 then Char.ofNat (c.toNat + 32)
  else if c = 'Á' then 'á'
  else if c = 'É' then 'é'
  else if c = 'Í' then 'í'
  else if c = 'Ó' then 'ó'
  else if c = 'Ú' then 'ú'
  else if c = 'Ñ' then 'ñ'
  else c

/-- Models Python `str.lower` on a whole string. -/
def pyLower (s : String) : String := ⟨s.data.map pyLowerChar⟩

/-- The character class `[a-z0-9 ]` of the regex in `_preprocess`
(`re.sub(r"[^a-z0-9 ]+", "", ...)` keeps exactly these characters):
codepoints 97..122 are a..z, 48..57 are 0..9, 32 is the space. -/
def isAllowed (c : Char) : Bool :=
  (97 ≤ c.toNat && c.toNat ≤ 122) || (48 ≤ c.toNat && c.toNat ≤ 57) || (c.toNat == 32)

/-- The substitution `re.sub(r"[^a-z0-9 ]+", "", s)`: deleting every
maximal run of disallowed characters is the same as keeping, in order,
exactly the characters of the class `[a-z0-9 ]`. -/
def filterClean (s : String) : String := ⟨s.data.filter isAllowed⟩

/-- The cleaning step of `_preprocess` (line 152 of
`latam_genderize/genderize.py`):
`re.sub(r"[^a-z0-9 ]+", "", unidecode.unidecode(str(x).lower()))`,
for a cell already converted to a string. Note the order: the source
lowercases first, then transliterates, then filters. -/
def cleanName (translit : String → String) (x : String) : String :=
  filterClean (translit (pyLower x))

/-- The pad/truncate step of `_preprocess` (lines 159-163):
`(name + [' '] * 50)[:50]` on the character list of a cleaned name. -/
def padName (s : String) : List Char :=
  (s.data ++ List.replicate 50 ' ').take 50

/-- The numeric encoding of one character (line 167):
`max(0.0, ord(char) - 96.0)`. -/
def encodeChar (c : Char) : ℚ :=
  max 0 ((c.toNat : ℚ) - 96)

/-- Full Normalizer/Encoder: raw string to 50-entry numeric vector
(clean, pad/truncate, encode). -/
def encodeName (translit : String → String) (x : String) : List ℚ :=
  (padName (cleanName translit x)).map encodeChar

/-- The label rule of `_predict` (line 194): `'M' if prob > 0.5 else 'F'`. -/
def genderLabel (s : ℚ) : String :=
  if 1/2 < s then "M" else "F"

/-- The confidence rule of `_predict` (lines 195-198):
`prob if prob > 0.5 else 1.0 - prob`. -/
def confidence (s : ℚ) : ℚ :=
  if 1/2 < s then s else 1 - s

/-- Round half to even on a rational, the rounding mode of Python's
built-in `round` used at line 203 (`round(prob, 2)` rounds the scaled
value to the nearest integer, ties to the even integer). -/
def roundHalfEvenQ (q : ℚ) : ℤ :=
  if q - ⌊q⌋ < 1/2 then ⌊q⌋
  else if 1/2 < q - ⌊q⌋ then ⌊q⌋ + 1
  else if ⌊q⌋ % 2 = 0 then ⌊q⌋ else ⌊q⌋ + 1

/-- Python's `round(q, 2)` over exact rationals. -/
def pyRound2 (q : ℚ) : ℚ :=
  (roundHalfEvenQ (q * 100) : ℚ) / 100

/-- The rounded probability emitted in the `gender_probability` column
(line 203). -/
def gender_probability (s : ℚ) : ℚ :=
  pyRound2 (confidence s)

/-- A cell of the tabular input: names may be strings, but pandas cells can
also hold `None` or numbers, so a cell is a small dynamic value. `vVec`
holds the scratch encoded vector stored in the `transform_name_nlp`
column. -/
inductive Value where
  | vNone : Value
  | vStr : String → Value
  | vInt : ℤ → Value
  | vRat : ℚ → Value
  | vVec : List ℚ → Value
deriving DecidableEq

/-- Python's `str(x)` for the cell values modelled here (`str(None)` is
the four-letter string capital-N "None"). `vVec` cells never reach
`str` in the pipeline, so their rendering is irrelevant. -/
def pyStr : Value → String
  | .vNone => "None"
  | .vStr s => s
  | .vInt n => toString n
  | .vRat q => toString q
  | .vVec _ => ""

/-- A pandas DataFrame, modelled column-orientedly: an ordered list of
(column name, cell list) pairs. Row `i` is the tuple of the `i`-th entries
of the cell lists, so keeping every cell list untouched keeps every row,
in order. -/
structure DataFrame where
  cols : List (String × List Value)
deriving DecidableEq

/-- The ordered list of column names (`df.columns`). -/
def DataFrame.colNames (df : DataFrame) : List String :=
  df.cols.map Prod.fst

/-- Column read `df[name]`. -/
def getCol (df : DataFrame) (name : String) : Option (List Value) :=
  (df.cols.find? (fun p => p.1 == name)).map Prod.snd

/-- Column assignment `df[name] = vs`, with pandas semantics: an existing
column is overwritten in place, a new one is appended at the end. -/
def setCol (df : DataFrame) (name : String) (vs : List Value) : DataFrame :=
  if name ∈ df.colNames then
    ⟨df.cols.map (fun p => if p.1 = name then (name, vs) else p)⟩
  else
    ⟨df.cols ++ [(name, vs)]⟩

/-- Column removal `df.drop(names, axis=1)`. -/
def dropCols (df : DataFrame) (names : List String) : DataFrame :=
  ⟨df.cols.filter (fun p => !(names.contains p.1))⟩

/-- How the pipeline reads the scratch encoded column back out of the
frame (`df['transform_name_nlp'].values.tolist()`). -/
def cellVec : Value → List ℚ
  | .vVec l => l
  | _ => []

/-- The user-visible failures of `genderize`: the two `ValueError`s raised
at lines 109-112 (no auto-detected name column) and 72-73 (explicit
column absent). -/
inductive GErr where
  | noNameColumn : GErr
  | columnNotFound : String → GErr
deriving DecidableEq

/-- The priority list of `_identify_column_name` (line 102). -/
def name_patterns : List String :=
  ["name", "nombre", "first_name", "firstname", "primer_nombre"]

/-- Python's `list.index(p)`: position of the first element equal to `p`. -/
def pyIndexAux (p : String) : List String → Option Nat
  | [] => none
  | c :: rest => if c = p then some 0 else (pyIndexAux p rest).map (· + 1)

/-- The pattern loop of `_identify_column_name` (lines 104-107):
for each pattern in priority order, if it occurs among the lowercased
column names, return the original column at its first occurrence. -/
def resolvePattern (columns normalized : List String) : List String → Option String
  | [] => none
  | pat :: rest =>
    if normalized.contains pat then
      (pyIndexAux pat normalized).map (fun i => columns.getD i "")
    else resolvePattern columns normalized rest

/-- `_identify_column_name` (lines 86-112): lowercase the column names,
scan the priority list, raise `ValueError` when nothing matches. -/
def identify_column_name (columns : List String) : Except GErr String :=
  match resolvePattern columns (columns.map pyLower) name_patterns with
  | some c => Except.ok c
  | none => Except.error GErr.noNameColumn

/-- `_preprocess` (lines 136-175): on a copy of the frame, clean the name
column, encode each cleaned name to its padded 50-vector, and store both
as the scratch columns `clean_name_nlp` and `transform_name_nlp`. -/
def _preprocess (translit : String → String) (df : DataFrame)
    (name_column : String) : DataFrame :=
  let serie := (getCol df name_column).getD []
  let clean_names := serie.map (fun x => cleanName translit (pyStr x))
  let encoded := clean_names.map (fun nm => (padName nm).map encodeChar)
  setCol (setCol df "clean_name_nlp" (clean_names.map Value.vStr))
    "transform_name_nlp" (encoded.map Value.vVec)

/-- `_predict` (lines 177-205): run the classifier once on the batch of
encoded vectors and append the `gender_predicted` and
`gender_probability` columns. -/
def _predict (model : List (List ℚ) → List ℚ) (df : DataFrame) : DataFrame :=
  let input := ((getCol df "transform_name_nlp").getD []).map cellVec
  let predictions := model input
  setCol
    (setCol df "gender_predicted"
      ((predictions.map genderLabel).map Value.vStr))
    "gender_probability"
    ((predictions.map (fun p => pyRound2 (confidence p))).map Value.vRat)

/-- `genderize` (lines 51-84): resolve the name column (auto-detect when
none is given), fail if it is absent, preprocess, predict, and drop the
two scratch columns. -/
def genderize (model : List (List ℚ) → List ℚ) (translit : String → String)
    (df : DataFrame) (name_column : Option String) : Except GErr DataFrame :=
  match (match name_column with
         | none => identify_column_name df.colNames
         | some c => Except.ok c) with
  | Except.error e => Except.error e
  | Except.ok c =>
    if c ∈ df.colNames then
      Except.ok (dropCols (_predict model (_preprocess translit df c))
        ["clean_name_nlp", "transform_name_nlp"])
    else
      Except.error (GErr.columnNotFound c)

/-- Modelled from the spec: the external transliteration capability
(`unidecode` in the source) on one character, restricted to the
characters this development uses. Printable ASCII passes through
unchanged; accented Latin letters drop their diacritic; the numero sign
'№' (U+2116) transliterates to the two-letter string "No" as in the
unidecode table; every other character is out of scope and maps to the
empty string (unidecode's behavior for unmapped codepoints). -/
def unidecodeChar (c : Char) : String :=
  if c.toNat < 128 then String.singleton c
  else if c = 'á' then "a"
  else if c = 'é' then "e"
  else if c = 'í' then "i"
  else if c = 'ó' then "o"
  else if c = 'ú' then "u"
  else if c = 'ñ' then "n"
  else if c = 'Á' then "A"
  else if c = 'É' then "E"
  else if c = 'Í' then "I"
  else if c = 'Ó' then "O"
  else if c = 'Ú' then "U"
  else if c = 'Ñ' then "N"
  else if c = '№' then "No"
  else ""

/-- Modelled from the spec: the transliteration capability on a whole
string, character by character. -/
def unidecodeStr (s : String) : String :=
  String.join (s.data.map unidecodeChar)

/-- The canonicalization order stated by the spec (transliterate first,
then lowercase, then filter), written from the spec's words for
comparison with `cleanName`, which embeds the source's actual order. -/
def specOrderCanonical (translit : String → String) (x : String) : String :=
  filterClean (pyLower (translit x))

/-- The auto-detection contract written from the spec's words: the first
case-insensitive match of the column names against the priority list,
taking the patterns in priority order and, for a given pattern, the
earliest matching column, returned under its original name. -/
def specAutoDetect (columns : List String) : List String → Option String
  | [] => none
  | pat :: rest =>
    match columns.find? (fun col => pyLower col == pat) with
    | some c => some c
    | none => specAutoDetect columns rest

/-- A concrete classifier capability for concrete runs: one score 3/10
per input row. Any function of the right type works; the pipeline
theorems quantify over the capability. -/
def modelConst : List (List ℚ) → List ℚ :=
  fun xs => xs.map (fun _ => 3/10)

/-- Concrete frame with no auto-detectable name column. -/
def dfNoName : DataFrame :=
  ⟨[("id", []), ("age", []), ("city", [])]⟩

/-- Concrete frame whose name column is auto-detectable as "nombre". -/
def dfNombre : DataFrame :=
  ⟨[("id", [Value.vInt 1]), ("nombre", [Value.vStr "ana"]), ("edad", [Value.vInt 30])]⟩

/-- Concrete well-formed frame: a name column and one untouched extra
column. -/
def dfW : DataFrame :=
  ⟨[("name", [Value.vStr "ana"]), ("id", [Value.vInt 1])]⟩

/-- Concrete frame whose input already contains a column named like the
scratch column `clean_name_nlp`. -/
def dfClash : DataFrame :=
  ⟨[("name", [Value.vStr "ana"]), ("clean_name_nlp", [Value.vStr "keep me"])]⟩

/-- Column names of a `genderize` result (empty list on failure). -/
def resultColNames : Except GErr DataFrame → List String
  | Except.ok d => d.colNames
  | Except.error _ => []

/-! Helper lemmas about characters and the encoder. -/

theorem space_toNat : (' ' : Char).toNat = 32 := rfl

theorem encodeChar_space : encodeChar ' ' = 0 := by
  rw [encodeChar, space_toNat]
  norm_num

theorem encodeChar_nonneg (c : Char) : 0 ≤ encodeChar c :=
  le_max_left 0 _

theorem encodeChar_le_of_allowed (c : Char) (h : isAllowed c = true) :
    encodeChar c ≤ 26 := by
  have hle : c.toNat ≤ 122 := by
    rw [isAllowed] at h
    simp only [Bool.or_eq_true, Bool.and_eq_true, decide_eq_true_eq, beq_iff_eq] at h
    omega
  have hq : (c.toNat : ℚ) ≤ 122 := by exact_mod_cast hle
  rw [encodeChar]
  rw [max_le_iff]
  constructor
  · norm_num
  · linarith

theorem mem_padName (c : Char) (s : String) (h : c ∈ padName s) :
    c ∈ s.data ∨ c = ' ' := by
  rw [padName] at h
  have h2 := List.mem_of_mem_take h
  rcases List.mem_append.mp h2 with h3 | h3
  · exact Or.inl h3
  · exact Or.inr (List.eq_of_mem_replicate h3)

theorem mem_filterClean_allowed (c : Char) (s : String)
    (h : c ∈ (filterClean s).data) : isAllowed c = true := by
  rw [filterClean] at h
  exact (List.mem_filter.mp h).2

theorem mem_cleanName_allowed (translit : String → String) (x : String)
    (c : Char) (h : c ∈ (cleanName translit x).data) : isAllowed c = true :=
  mem_filterClean_allowed c _ h

theorem isAllowed_space : isAllowed ' ' = true := by decide

theorem encodeName_length (translit : String → String) (s : String) :
    (encodeName translit s).length = 50 := by
  rw [encodeName, List.length_map, padName, List.length_take,
    List.length_append, List.length_replicate]
  omega

/-- C1: for every classifier score s in [0,1], the decision pipeline labels
"M" exactly when s > 1/2 and "F" otherwise, with confidence s when s > 1/2
and 1 - s otherwise; at s = 1/2 exactly the label is "F" and the
confidence 1/2. -/
theorem c1_decision_rule (s : ℚ) (h0 : 0 ≤ s) (h1 : s ≤ 1) :
    (1/2 < s → genderLabel s = "M" ∧ confidence s = s) ∧
    (s ≤ 1/2 → genderLabel s = "F" ∧ confidence s = 1 - s) ∧
    (s = 1/2 → genderLabel s = "F" ∧ confidence s = 1/2) := by
  refine ⟨fun h => ?_, fun h => ?_, fun h => ?_⟩
  · rw [genderLabel, confidence, if_pos h, if_pos h]
    exact ⟨rfl, rfl⟩
  · rw [genderLabel, confidence, if_neg (not_lt.mpr h), if_neg (not_lt.mpr h)]
    exact ⟨rfl, rfl⟩
  · subst h
    rw [genderLabel, confidence, if_neg (lt_irrefl _), if_neg (lt_irrefl _)]
    norm_num

/-- Witness for C1 at the concrete scores 7/10 and 1/2. -/
theorem c1_decision_rule_witness :
    (genderLabel (7/10) = "M" ∧ confidence (7/10) = 7/10) ∧
    (genderLabel (1/2) = "F" ∧ confidence (1/2) = 1/2) :=
  ⟨(c1_decision_rule (7/10) (by norm_num) (by norm_num)).1 (by norm_num),
   (c1_decision_rule (1/2) (by norm_num) (by norm_num)).2.2 rfl⟩

/-- C3: the encoded vector always has length exactly 50; cleaned names of
length at least 50 are truncated to their first 50 characters, shorter
ones are right-padded with spaces; if the transliteration capability fixes
the empty string, the empty string encodes to the all-zero 50-vector. -/
theorem c3_encoded_length (translit : String → String) (s : String) :
    (encodeName translit s).length = 50 ∧
    (50 ≤ (cleanName translit s).data.length →
      padName (cleanName translit s) = (cleanName translit s).data.take 50) ∧
    ((cleanName translit s).data.length < 50 →
      padName (cleanName translit s) =
        (cleanName translit s).data ++
          List.replicate (50 - (cleanName translit s).data.length) ' ') ∧
    (translit "" = "" → encodeName translit "" = List.replicate 50 0) := by
  refine ⟨encodeName_length translit s, fun h => ?_, fun h => ?_, fun h => ?_⟩
  · rw [padName, List.take_append_eq_append_take]
    have h0 : 50 - (cleanName translit s).data.length = 0 := by omega
    rw [h0]
    simp
  · rw [padName, List.take_append_eq_append_take,
      List.take_of_length_le (le_of_lt h), List.take_replicate]
    have hmin : min (50 - (cleanName translit s).data.length) 50 =
        50 - (cleanName translit s).data.length := by omega
    rw [hmin]
  · have hclean : cleanName translit "" = "" := by
      rw [cleanName]
      have hl : pyLower "" = "" := rfl
      rw [hl, h]
      rfl
    rw [encodeName, hclean]
    have hpad : padName "" = List.replicate 50 ' ' := by
      rw [padName]
      have hd : ("" : String).data = [] := rfl
      rw [hd, List.nil_append, List.take_replicate]
      norm_num
    rw [hpad, List.map_replicate, encodeChar_space]

/-- Witness for C3 at the concrete transliteration model and the inputs
"María José" and the empty string. -/
theorem c3_encoded_length_witness :
    (encodeName unidecodeStr "María José").length = 50 ∧
    encodeName unidecodeStr "" = List.replicate 50 0 :=
  ⟨(c3_encoded_length unidecodeStr "María José").1,
   (c3_encoded_length unidecodeStr "María José").2.2.2 rfl⟩

/-- C4: every entry of the encoded vector is the encoding
max(0, codepoint - 96) of a character of the class [a-z0-9 ], hence lies
in [0, 26]; letters a..z encode to 1..26 while digits and the space
encode to 0. -/
theorem c4_encoding_range (translit : String → String) (s : String) :
    (∀ v ∈ encodeName translit s,
      (∃ c, isAllowed c = true ∧ v = max 0 ((c.toNat : ℚ) - 96)) ∧
      0 ≤ v ∧ v ≤ 26) ∧
    encodeChar 'a' = 1 ∧ encodeChar 'z' = 26 ∧
    encodeChar ' ' = 0 ∧ encodeChar '0' = 0 ∧ encodeChar '9' = 0 := by
  constructor
  · intro v hv
    rw [encodeName] at hv
    obtain ⟨c, hc, hce⟩ := List.mem_map.mp hv
    have hall : isAllowed c = true := by
      rcases mem_padName c _ hc with h | h
      · exact mem_cleanName_allowed translit s c h
      · rw [h]; exact isAllowed_space
    subst hce
    exact ⟨⟨c, hall, rfl⟩, encodeChar_nonneg c, encodeChar_le_of_allowed c hall⟩
  refine ⟨?_, ?_, encodeChar_space, ?_, ?_⟩
  · rw [encodeChar]
    have h : ('a' : Char).toNat = 97 := rfl
    rw [h]; norm_num
  · rw [encodeChar]
    have h : ('z' : Char).toNat = 122 := rfl
    rw [h]; norm_num
  · rw [encodeChar]
    have h : ('0' : Char).toNat = 48 := rfl
    rw [h]; norm_num
  · rw [encodeChar]
    have h : ('9' : Char).toNat = 57 := rfl
    rw [h]; norm_num

theorem pyLowerChar_of_allowed (c : Char) (h : isAllowed c = true) :
    pyLowerChar c = c := by
  rw [isAllowed] at h
  simp only [Bool.or_eq_true, Bool.and_eq_true, decide_eq_true_eq, beq_iff_eq] at h
  have h122 : c.toNat ≤ 122 := by omega
  have hnot : ¬(65 ≤ c.toNat ∧ c.toNat ≤ 90) := by omega
  have hA : c ≠ 'Á' := fun he => by rw [he] at h122; exact absurd h122 (by decide)
  have hE : c ≠ 'É' := fun he => by rw [he] at h122; exact absurd h122 (by decide)
  have hI : c ≠ 'Í' := fun he => by rw [he] at h122; exact absurd h122 (by decide)
  have hO : c ≠ 'Ó' := fun he => by rw [he] at h122; exact absurd h122 (by decide)
  have hU : c ≠ 'Ú' := fun he => by rw [he] at h122; exact absurd h122 (by decide)
  have hN : c ≠ 'Ñ' := fun he => by rw [he] at h122; exact absurd h122 (by decide)
  rw [pyLowerChar, if_neg hnot, if_neg hA, if_neg hE, if_neg hI, if_neg hO,
    if_neg hU, if_neg hN]

theorem pyLower_of_allowed (s : String)
    (h : ∀ c ∈ s.data, isAllowed c = true) : pyLower s = s := by
  rw [pyLower]
  have hm : s.data.map pyLowerChar = s.data := by
    have hc := List.map_congr_left (l := s.data)
      (f := pyLowerChar) (g := id)
      (fun c hc => pyLowerChar_of_allowed c (h c hc))
    rw [hc, List.map_id]
  rw [hm]

theorem filterClean_of_allowed (s : String)
    (h : ∀ c ∈ s.data, isAllowed c = true) : filterClean s = s := by
  rw [filterClean, List.filter_eq_self.mpr h]

/-- C2 counterexample: with the transliteration capability's actual
behavior on the numero sign (unidecode maps '№' to "No"), the code's
order (lowercase, then transliterate, then filter) and the claimed order
(transliterate, then lowercase, then filter) give different canonical
names: the code keeps only "o", the claimed order gives "no". -/
theorem c2_counterexample :
    cleanName unidecodeStr "№" = "o" ∧
    specOrderCanonical unidecodeStr "№" = "no" ∧
    cleanName unidecodeStr "№" ≠ specOrderCanonical unidecodeStr "№" :=
  ⟨by decide, by decide, by decide⟩

/-- C2 (amended): the canonical name applies the three normalization
steps in the source's order: first lowercase, then transliterate, then
remove every character outside [a-z0-9 ]. The filtering step keeps an
ordered subsequence of the lowercased-transliterated string, consisting
exactly of its characters from the allowed class. -/
theorem c2_normalization_order (translit : String → String) (x : String) :
    cleanName translit x = filterClean (translit (pyLower x)) ∧
    (cleanName translit x).data.Sublist (translit (pyLower x)).data ∧
    (∀ c ∈ (cleanName translit x).data, isAllowed c = true) ∧
    (∀ c, isAllowed c = true →
      (cleanName translit x).data.count c = (translit (pyLower x)).data.count c) := by
  refine ⟨rfl, ?_, ?_, ?_⟩
  · rw [cleanName, filterClean]
    exact List.filter_sublist _
  · exact fun c hc => mem_cleanName_allowed translit x c hc
  · intro c hc
    rw [cleanName, filterClean]
    exact List.count_filter hc

/-- Witness for C2 at the concrete transliteration model and the input
"María". -/
theorem c2_normalization_order_witness :
    cleanName unidecodeStr "María" = filterClean (unidecodeStr (pyLower "María")) ∧
    (cleanName unidecodeStr "María").data.Sublist
      (unidecodeStr (pyLower "María")).data ∧
    (∀ c ∈ (cleanName unidecodeStr "María").data, isAllowed c = true) ∧
    (∀ c, isAllowed c = true →
      (cleanName unidecodeStr "María").data.count c =
        (unidecodeStr (pyLower "María")).data.count c) :=
  c2_normalization_order unidecodeStr "María"

/-- C9: normalization is idempotent, given that the transliteration
capability fixes strings that are already canonical (true of unidecode,
which passes printable ASCII through unchanged). -/
theorem c9_normalize_idempotent (translit : String → String)
    (htr : ∀ s : String, (∀ c ∈ s.data, isAllowed c = true) → translit s = s)
    (x : String) :
    cleanName translit (cleanName translit x) = cleanName translit x := by
  have hall : ∀ c ∈ (cleanName translit x).data, isAllowed c = true :=
    fun c hc => mem_cleanName_allowed translit x c hc
  rw [cleanName, pyLower_of_allowed _ hall, htr _ hall,
    filterClean_of_allowed _ hall]

/-- Witness for C9: the identity transliteration fixes every canonical
string, and normalizing "José??" twice equals normalizing it once. -/
theorem c9_normalize_idempotent_witness :
    cleanName id (cleanName id "José??") = cleanName id "José??" :=
  c9_normalize_idempotent id (fun _ _ => rfl) "José??"

/-- C10: preprocessing a cell is total over all modelled cell values
(`str(x)` is applied before lowercasing, so non-string cells never make
the pipeline fail): the encoding always yields a 50-vector, and the
`None` cell is treated as the name "none" (given that the transliteration
capability fixes canonical ASCII strings, as unidecode does). -/
theorem c10_cell_totality (translit : String → String) (v : Value)
    (htr : ∀ s : String, (∀ c ∈ s.data, isAllowed c = true) → translit s = s) :
    (encodeName translit (pyStr v)).length = 50 ∧
    cleanName translit (pyStr Value.vNone) = "none" := by
  refine ⟨encodeName_length translit (pyStr v), ?_⟩
  have h1 : pyLower (pyStr Value.vNone) = "none" := by decide
  rw [cleanName, h1, htr "none" (by decide)]
  decide

/-- Witness for C10 at the identity transliteration and the `None` cell. -/
theorem c10_cell_totality_witness :
    (encodeName id (pyStr Value.vNone)).length = 50 ∧
    cleanName id (pyStr Value.vNone) = "none" :=
  c10_cell_totality id Value.vNone (fun _ _ => rfl)

/-- Witness for C4 at the concrete transliteration model and the input
"María José". -/
theorem c4_encoding_range_witness :
    (∀ v ∈ encodeName unidecodeStr "María José",
      (∃ c, isAllowed c = true ∧ v = max 0 ((c.toNat : ℚ) - 96)) ∧
      0 ≤ v ∧ v ≤ 26) ∧
    encodeChar 'a' = 1 ∧ encodeChar 'z' = 26 ∧
    encodeChar ' ' = 0 ∧ encodeChar '0' = 0 ∧ encodeChar '9' = 0 :=
  c4_encoding_range unidecodeStr "María José"

/-! Helper lemmas about round half to even. -/

theorem roundHalfEvenQ_mem (q : ℚ) :
    roundHalfEvenQ q = ⌊q⌋ ∨ roundHalfEvenQ q = ⌊q⌋ + 1 := by
  rw [roundHalfEvenQ]
  split_ifs <;> simp

theorem roundHalfEvenQ_ge (n : ℤ) (q : ℚ) (h : (n : ℚ) ≤ q) :
    n ≤ roundHalfEvenQ q := by
  have hf : n ≤ ⌊q⌋ := Int.le_floor.mpr h
  rcases roundHalfEvenQ_mem q with he | he <;> rw [he] <;> omega

theorem roundHalfEvenQ_le (n : ℤ) (q : ℚ) (h : q ≤ (n : ℚ)) :
    roundHalfEvenQ q ≤ n := by
  have hfl : ⌊q⌋ ≤ n := by
    have h2 := Int.floor_mono h
    rwa [Int.floor_intCast] at h2
  rcases eq_or_lt_of_le hfl with heq | hlt
  · have h3 : (⌊q⌋ : ℚ) ≤ q := Int.floor_le q
    have hr : q - (⌊q⌋ : ℚ) < 1/2 := by
      rw [heq] at h3 ⊢
      linarith
    rw [roundHalfEvenQ, if_pos hr]
    exact hfl
  · rcases roundHalfEvenQ_mem q with he | he <;> rw [he] <;> omega

theorem roundHalfEvenQ_eq_fifty (q : ℚ) (hge : (50 : ℚ) ≤ q) :
    roundHalfEvenQ q = 50 ↔ q ≤ 101/2 := by
  have hfl : 50 ≤ ⌊q⌋ := Int.le_floor.mpr (by exact_mod_cast hge)
  constructor
  · intro h
    rw [roundHalfEvenQ] at h
    split_ifs at h with h1 h2 h3
    · have hq : (⌊q⌋ : ℚ) = 50 := by exact_mod_cast h
      linarith
    · omega
    · have hq : (⌊q⌋ : ℚ) = 50 := by exact_mod_cast h
      have hr : q - (⌊q⌋ : ℚ) ≤ 1/2 := not_lt.mp h2
      linarith
    · omega
  · intro h
    have hfu : ⌊q⌋ < 51 := Int.floor_lt.mpr (by push_cast; linarith)
    have hfe : ⌊q⌋ = 50 := by omega
    have hr : q - (⌊q⌋ : ℚ) ≤ 1/2 := by
      rw [hfe]
      push_cast
      linarith
    rcases lt_or_eq_of_le hr with hlt | heq
    · rw [roundHalfEvenQ, if_pos hlt]
      exact hfe
    · rw [roundHalfEvenQ, if_neg (by linarith), if_neg (by linarith),
        if_pos (by rw [hfe]; decide)]
      exact hfe

theorem confidence_bounds (s : ℚ) (h0 : 0 ≤ s) (h1 : s ≤ 1) :
    1/2 ≤ confidence s ∧ confidence s ≤ 1 := by
  rw [confidence]
  split_ifs with h <;> constructor <;> linarith

/-- C5 counterexample: the score 63/125 = 0.504 differs from 1/2, yet its
confidence 0.504 rounds to exactly 0.5, so the rounded confidence equals
0.5 at a score other than exactly 0.5. -/
theorem c5_counterexample :
    (0 : ℚ) ≤ 63/125 ∧ (63/125 : ℚ) ≤ 1 ∧ (63/125 : ℚ) ≠ 1/2 ∧
    gender_probability (63/125) = 1/2 := by
  refine ⟨by norm_num, by norm_num, by norm_num, ?_⟩
  rw [gender_probability, confidence, if_pos (by norm_num : (1:ℚ)/2 < 63/125),
    pyRound2]
  have hfl : ⌊(63/125 : ℚ) * 100⌋ = 50 := by
    rw [Int.floor_eq_iff]
    norm_num
  rw [roundHalfEvenQ, hfl, if_pos (by push_cast; norm_num)]
  norm_num

/-- C5 (amended): for every score s in [0,1] the rounded confidence lies
in [1/2, 1], and it equals 1/2 exactly when the score lies within 1/200
of 1/2 (any confidence up to 0.505 rounds half-to-even down to 0.5), not
only when the score is exactly 1/2. -/
theorem c5_rounded_confidence (s : ℚ) (h0 : 0 ≤ s) (h1 : s ≤ 1) :
    1/2 ≤ gender_probability s ∧ gender_probability s ≤ 1 ∧
    (gender_probability s = 1/2 ↔ 99/200 ≤ s ∧ s ≤ 101/200) := by
  obtain ⟨hcl, hcu⟩ := confidence_bounds s h0 h1
  have h50 : ((50:ℤ) : ℚ) ≤ confidence s * 100 := by push_cast; linarith
  have h100 : confidence s * 100 ≤ ((100:ℤ) : ℚ) := by push_cast; linarith
  have hlow := roundHalfEvenQ_ge 50 _ h50
  have hup := roundHalfEvenQ_le 100 _ h100
  have hclow : ((50:ℤ) : ℚ) ≤ (roundHalfEvenQ (confidence s * 100) : ℚ) := by
    exact_mod_cast hlow
  have hcup : (roundHalfEvenQ (confidence s * 100) : ℚ) ≤ ((100:ℤ) : ℚ) := by
    exact_mod_cast hup
  refine ⟨?_, ?_, ?_⟩
  · rw [gender_probability, pyRound2]
    push_cast at hclow ⊢
    linarith
  · rw [gender_probability, pyRound2]
    push_cast at hcup ⊢
    linarith
  · rw [gender_probability, pyRound2]
    have hiff := roundHalfEvenQ_eq_fifty (confidence s * 100)
      (by push_cast at h50 ⊢; linarith)
    constructor
    · intro h
      have hm : roundHalfEvenQ (confidence s * 100) = 50 := by
        have hq : (roundHalfEvenQ (confidence s * 100) : ℚ) = 50 := by
          field_simp at h
          linarith
        exact_mod_cast hq
      have hle := hiff.mp hm
      rw [confidence] at hle
      split_ifs at hle with hgt
      · constructor <;> linarith
      · push_neg at hgt
        constructor <;> linarith
    · rintro ⟨ha, hb⟩
      have hq : confidence s * 100 ≤ 101/2 := by
        rw [confidence]
        split_ifs with hgt <;> linarith
      rw [hiff.mpr hq]
      norm_num

/-- Witness for C5 at the concrete score 3/10. -/
theorem c5_rounded_confidence_witness :
    1/2 ≤ gender_probability (3/10) ∧ gender_probability (3/10) ≤ 1 ∧
    (gender_probability (3/10) = 1/2 ↔
      99/200 ≤ (3/10 : ℚ) ∧ (3/10 : ℚ) ≤ 101/200) :=
  c5_rounded_confidence (3/10) (by norm_num) (by norm_num)

/-! Helper lemmas about column auto-detection. -/

theorem pyIndexAux_getD (pat : String) (columns : List String) :
    (pyIndexAux pat (columns.map pyLower)).map (fun i => columns.getD i "") =
      columns.find? (fun col => pyLower col == pat) := by
  induction columns with
  | nil => rfl
  | cons c rest ih =>
    rw [List.map_cons, pyIndexAux]
    by_cases h : pyLower c = pat
    · rw [if_pos h, List.find?_cons_of_pos _ (by simp [h])]
      rfl
    · rw [if_neg h, List.find?_cons_of_neg _ (by simp [h]), Option.map_map,
        ← ih]
      cases pyIndexAux pat (rest.map pyLower) <;> rfl

theorem resolvePattern_eq_spec (columns : List String) (pats : List String) :
    resolvePattern columns (columns.map pyLower) pats =
      specAutoDetect columns pats := by
  induction pats with
  | nil => rfl
  | cons pat rest ih =>
    rw [resolvePattern, specAutoDetect]
    by_cases h : (columns.map pyLower).contains pat
    · rw [if_pos h, pyIndexAux_getD]
      have hmem : pat ∈ columns.map pyLower := List.elem_iff.mp h
      obtain ⟨col, hcol, hlow⟩ := List.mem_map.mp hmem
      have hsome : (columns.find? (fun col => pyLower col == pat)).isSome :=
        List.find?_isSome.mpr ⟨col, hcol, by simp [hlow]⟩
      rcases hfind : columns.find? (fun col => pyLower col == pat) with _ | c
      · rw [hfind] at hsome
        exact absurd hsome (by simp)
      · rfl
    · rw [if_neg h, ih]
      have hnone : columns.find? (fun col => pyLower col == pat) = none := by
        rw [List.find?_eq_none]
        intro x hx hbeq
        exact h (List.elem_iff.mpr
          (List.mem_map.mpr ⟨x, hx, by simpa using hbeq⟩))
      rw [hnone]

theorem identify_eq_spec (columns : List String) :
    identify_column_name columns =
      (match specAutoDetect columns name_patterns with
       | some c => Except.ok c
       | none => Except.error GErr.noNameColumn) := by
  rw [identify_column_name, resolvePattern_eq_spec]

/-- C7: with no explicit selector, the name column resolves to the first
case-insensitive match of the input's column names against the priority
list name, nombre, first_name, firstname, primer_nombre, returned under
its original name; when no pattern matches, the call fails with the
no-name-column error for every classifier and transliteration capability,
so before any encoding or classification work. -/
theorem c7_auto_detect (df : DataFrame) (model : List (List ℚ) → List ℚ)
    (translit : String → String) :
    identify_column_name df.colNames =
      (match specAutoDetect df.colNames name_patterns with
       | some c => Except.ok c
       | none => Except.error GErr.noNameColumn) ∧
    (specAutoDetect df.colNames name_patterns = none →
      genderize model translit df none = Except.error GErr.noNameColumn) := by
  refine ⟨identify_eq_spec df.colNames, fun h => ?_⟩
  rw [genderize, identify_eq_spec df.colNames, h]

/-- Witness for C7: the columns id, nombre, edad resolve to "nombre";
the columns id, age, city fail with the no-name-column error. -/
theorem c7_auto_detect_witness :
    identify_column_name dfNombre.colNames = Except.ok "nombre" ∧
    genderize modelConst id dfNoName none = Except.error GErr.noNameColumn := by
  constructor
  · rw [(c7_auto_detect dfNombre modelConst id).1,
      (by decide : specAutoDetect dfNombre.colNames name_patterns = some "nombre")]
  · exact (c7_auto_detect dfNoName modelConst id).2 (by decide)

/-- C8: an explicitly supplied column selector that names no field of the
input makes genderize fail with the column-not-found error for every
classifier and transliteration capability (so before any encoding or
classification), and the error result carries no rows. -/
theorem c8_column_not_found (df : DataFrame) (model : List (List ℚ) → List ℚ)
    (translit : String → String) (c : String) (h : c ∉ df.colNames) :
    genderize model translit df (some c) =
      Except.error (GErr.columnNotFound c) := by
  rw [genderize]
  exact if_neg h

/-- Witness for C8: asking for the column "nombre" on a frame with
columns id, age, city fails with the column-not-found error. -/
theorem c8_column_not_found_witness :
    genderize modelConst id dfNoName (some "nombre") =
      Except.error (GErr.columnNotFound "nombre") :=
  c8_column_not_found dfNoName modelConst id "nombre" (by decide)

/-! Helper lemmas about the frame operations. -/

theorem mem_cols_ne_of_not_mem (df : DataFrame) (n : String)
    (h : n ∉ df.colNames) : ∀ p ∈ df.cols, p.1 ≠ n := by
  intro p hp he
  exact h (he ▸ List.mem_map_of_mem Prod.fst hp)

theorem setCol_of_not_mem (df : DataFrame) (name : String) (vs : List Value)
    (h : name ∉ df.colNames) : setCol df name vs = ⟨df.cols ++ [(name, vs)]⟩ := by
  rw [setCol, if_neg h]

theorem not_mem_colNames_append (l : List (String × List Value)) (n m : String)
    (v : List Value) (h1 : n ∉ DataFrame.colNames ⟨l⟩) (h2 : n ≠ m) :
    n ∉ DataFrame.colNames ⟨l ++ [(m, v)]⟩ := by
  rw [DataFrame.colNames, List.map_append]
  rw [DataFrame.colNames] at h1
  intro hmem
  rcases List.mem_append.mp hmem with h | h
  · exact h1 h
  · rcases List.mem_singleton.mp h with he
    exact h2 he

theorem getCol_append_last (l : List (String × List Value)) (name : String)
    (vs : List Value) (h : ∀ p ∈ l, p.1 ≠ name) :
    getCol ⟨l ++ [(name, vs)]⟩ name = some vs := by
  rw [getCol]
  have hnone : l.find? (fun p => p.1 == name) = none :=
    List.find?_eq_none.mpr (fun p hp => by simp [h p hp])
  rw [List.find?_append, hnone, Option.none_or,
    List.find?_cons_of_pos _ (by simp)]
  rfl

theorem map_cellVec_map_vVec (l : List (List ℚ)) :
    (l.map Value.vVec).map cellVec = l := by
  rw [List.map_map]
  have h := List.map_congr_left (l := l) (f := cellVec ∘ Value.vVec) (g := id)
    (fun a _ => rfl)
  rw [h, List.map_id]

theorem not_mem_colNames_app (l1 l2 : List (String × List Value)) (n : String)
    (ha : n ∉ DataFrame.colNames ⟨l1⟩) (hb : n ∉ DataFrame.colNames ⟨l2⟩) :
    n ∉ DataFrame.colNames ⟨l1 ++ l2⟩ := by
  rw [DataFrame.colNames, List.map_append]
  rw [DataFrame.colNames] at ha hb
  intro h
  rcases List.mem_append.mp h with h | h
  · exact ha h
  · exact hb h

/-- C6 (amended): provided the input frame contains none of the four
working column names clean_name_nlp, transform_name_nlp,
gender_predicted and gender_probability, genderize returns the input
columns unchanged, in order (hence every original field value and the
row order are preserved), followed by exactly the two new columns
gender_predicted and gender_probability; the two scratch columns never
appear in the output. -/
theorem c6_output_frame (df : DataFrame) (model : List (List ℚ) → List ℚ)
    (translit : String → String) (c : String)
    (hc : c ∈ df.colNames)
    (h1 : "clean_name_nlp" ∉ df.colNames)
    (h2 : "transform_name_nlp" ∉ df.colNames)
    (h3 : "gender_predicted" ∉ df.colNames)
    (h4 : "gender_probability" ∉ df.colNames) :
    genderize model translit df (some c) =
      Except.ok ⟨df.cols ++
        [("gender_predicted",
          ((model ((((getCol df c).getD []).map
            (fun x => cleanName translit (pyStr x))).map
            (fun nm => (padName nm).map encodeChar))).map genderLabel).map
            Value.vStr),
         ("gender_probability",
          ((model ((((getCol df c).getD []).map
            (fun x => cleanName translit (pyStr x))).map
            (fun nm => (padName nm).map encodeChar))).map
            (fun p => pyRound2 (confidence p))).map Value.vRat)]⟩ := by
  have hne_tn : ∀ v : List Value,
      ∀ p ∈ df.cols ++ [("clean_name_nlp", v)], p.1 ≠ "transform_name_nlp" := by
    intro v p hp
    rcases List.mem_append.mp hp with h | h
    · exact mem_cols_ne_of_not_mem df _ h2 p h
    · rw [List.mem_singleton.mp h]
      simp
  have htn_not : ∀ v : List Value,
      "transform_name_nlp" ∉
        DataFrame.colNames ⟨df.cols ++ [("clean_name_nlp", v)]⟩ :=
    fun v => not_mem_colNames_app df.cols _ _ h2 (by simp [DataFrame.colNames])
  have hgp_not : ∀ v w : List Value,
      "gender_predicted" ∉ DataFrame.colNames
        ⟨(df.cols ++ [("clean_name_nlp", v)]) ++ [("transform_name_nlp", w)]⟩ :=
    fun v w => not_mem_colNames_app _ _ _
      (not_mem_colNames_app df.cols _ _ h3 (by simp [DataFrame.colNames]))
      (by simp [DataFrame.colNames])
  have hgpr_not : ∀ v w u : List Value,
      "gender_probability" ∉ DataFrame.colNames
        ⟨((df.cols ++ [("clean_name_nlp", v)]) ++ [("transform_name_nlp", w)]) ++
          [("gender_predicted", u)]⟩ :=
    fun v w u => not_mem_colNames_app _ _ _
      (not_mem_colNames_app _ _ _
        (not_mem_colNames_app df.cols _ _ h4 (by simp [DataFrame.colNames]))
        (by simp [DataFrame.colNames]))
      (by simp [DataFrame.colNames])
  have hkeep : ∀ p ∈ df.cols,
      (!(["clean_name_nlp", "transform_name_nlp"].contains p.1)) = true := by
    intro p hp
    simp [List.contains, mem_cols_ne_of_not_mem df _ h1 p hp,
      mem_cols_ne_of_not_mem df _ h2 p hp]
  have hf1 : ∀ v : List Value,
      List.filter (fun p => !(["clean_name_nlp", "transform_name_nlp"].contains p.1))
        [("clean_name_nlp", v)] = [] := fun v => rfl
  have hf2 : ∀ v : List Value,
      List.filter (fun p => !(["clean_name_nlp", "transform_name_nlp"].contains p.1))
        [("transform_name_nlp", v)] = [] := fun v => rfl
  have hf3 : ∀ v : List Value,
      List.filter (fun p => !(["clean_name_nlp", "transform_name_nlp"].contains p.1))
        [("gender_predicted", v)] = [("gender_predicted", v)] := fun v => rfl
  have hf4 : ∀ v : List Value,
      List.filter (fun p => !(["clean_name_nlp", "transform_name_nlp"].contains p.1))
        [("gender_probability", v)] = [("gender_probability", v)] := fun v => rfl
  simp only [genderize, _preprocess, _predict]
  rw [if_pos hc]
  rw [setCol_of_not_mem df _ _ h1]
  rw [setCol_of_not_mem _ _ _ (htn_not _)]
  rw [getCol_append_last _ _ _ (hne_tn _)]
  simp only [Option.getD_some]
  rw [map_cellVec_map_vVec]
  rw [setCol_of_not_mem _ _ _ (hgp_not _ _)]
  rw [setCol_of_not_mem _ _ _ (hgpr_not _ _ _)]
  simp only [dropCols]
  rw [List.filter_append, List.filter_append, List.filter_append,
    List.filter_append]
  rw [List.filter_eq_self.mpr hkeep, hf1, hf2, hf3, hf4]
  simp [List.append_assoc]

/-- Witness for C6 on a concrete clash-free frame with a name column and
one extra column. -/
theorem c6_output_frame_witness :
    genderize modelConst id dfW (some "name") =
      Except.ok ⟨dfW.cols ++
        [("gender_predicted",
          ((modelConst ((((getCol dfW "name").getD []).map
            (fun x => cleanName id (pyStr x))).map
            (fun nm => (padName nm).map encodeChar))).map genderLabel).map
            Value.vStr),
         ("gender_probability",
          ((modelConst ((((getCol dfW "name").getD []).map
            (fun x => cleanName id (pyStr x))).map
            (fun nm => (padName nm).map encodeChar))).map
            (fun p => pyRound2 (confidence p))).map Value.vRat)]⟩ :=
  c6_output_frame dfW modelConst id "name" (by decide) (by decide) (by decide)
    (by decide) (by decide)

/-- C6 counterexample: on an input frame that already has a column named
clean_name_nlp, that original column is silently overwritten and then
dropped, so the output does not preserve every original field: the claim
fails for such record sets. -/
theorem c6_counterexample :
    "clean_name_nlp" ∈ dfClash.colNames ∧
    resultColNames (genderize modelConst id dfClash (some "name")) =
      ["name", "gender_predicted", "gender_probability"] := by
  constructor
  · decide
  · decide

end LatamGenderize
